import Mathlib

/-!
Verification of the go-hostpool adaptive host selector.

The Go source is shallowly embedded: durations and timestamps are natural
numbers (nanoseconds), `float64` samples and the exploration factor are
rationals, and the per-host actor loop (`handleRequests`) as well as the
decay-store request multiplexer (`muxRequests`) are embedded as pure state
transformers, one per request kind, since every request is fully serialized
by its channel.
-/

namespace HostPool

/-- `time.Second` in nanoseconds. -/
def second : Nat := 1000000000

/-- Per-host liveness and backoff record (`hostEntry` in the source). -/
structure HostEntry where
  host : String
  nextRetry : Nat := 0
  retryDelay : Nat
  initialRetryDelay : Nat
  maxRetryInterval : Nat
  dead : Bool := false
deriving DecidableEq

/-- `newHostEntry`: a fresh entry is alive, with `retryDelay` set to
`initialRetryDelay` and the zero `time.Time` as `nextRetry`. -/
def newHostEntry (host : String) (initialRetryDelay maxRetryInterval : Nat) : HostEntry :=
  { host := host
    retryDelay := initialRetryDelay
    initialRetryDelay := initialRetryDelay
    maxRetryInterval := maxRetryInterval }

/-- The `setDeadRequest` case of `handleRequests`: only the alive-to-dead
transition re-arms the retry timer (`retryDelay = initialRetryDelay`,
`nextRetry = now + retryDelay`); in every case `dead` becomes the new value. -/
def SetDead (he : HostEntry) (now : Nat) (newVal : Bool) : HostEntry :=
  if newVal && !he.dead then
    { he with
        retryDelay := he.initialRetryDelay
        nextRetry := now + he.initialRetryDelay
        dead := newVal }
  else
    { he with dead := newVal }

/-- The `canTryRequest` case of `handleRequests`:
`!he.dead || he.nextRetry.Before(atTime)`. `time.Time.Before` is a strict
comparison. -/
def canTryHost (he : HostEntry) (now : Nat) : Bool :=
  !he.dead || decide (he.nextRetry < now)

/-- The `willRetryRequest` case of `handleRequests`: the retry delay doubles,
capped at `maxRetryInterval`, and `nextRetry` is recomputed from `now`.
(The Go detour through `float64` in `math.Min` is exact for these magnitudes.) -/
def willRetryHost (he : HostEntry) (now : Nat) : HostEntry :=
  { he with
      retryDelay := min (he.retryDelay * 2) he.maxRetryInterval
      nextRetry := now + min (he.retryDelay * 2) he.maxRetryInterval }

/-- `standardHostPool` (hostpool.go): ordered host list plus the round-robin
cursor. The `hosts` map shares its entries with `hostList`, so the list is the
authoritative state here. -/
structure StandardHostPool where
  hostList : List HostEntry
  initialRetryDelay : Nat
  maxRetryInterval : Nat
  nextHostIndex : Nat
deriving DecidableEq

/-- `New`: builds one entry per host name, retry delay 30s, max interval 900s.
Note that an empty `hosts` list is accepted and yields a pool with an empty
`hostList`. -/
def New (hosts : List String) : StandardHostPool :=
  { hostList := hosts.map (fun h => newHostEntry h (30 * second) (900 * second))
    initialRetryDelay := 30 * second
    maxRetryInterval := 900 * second
    nextHostIndex := 0 }

/-- Placeholder entry for out-of-range `getD` lookups; every lookup below is
in range, so it is never observed. -/
def defaultHostEntry : HostEntry :=
  { host := "", retryDelay := 0, initialRetryDelay := 0, maxRetryInterval := 0 }

/-- `doResetAll`: `SetDead(false)` on every entry. -/
def doResetAll (l : List HostEntry) (now : Nat) : List HostEntry :=
  l.map (fun e => SetDead e now false)

/-- The scan inside `getRoundRobin`: the first index
`(i + nextHostIndex) % len` (for `i = 0, 1, ...`) whose entry satisfies
`canTryHost now`. -/
def grrFind (l : List HostEntry) (start now : Nat) : Option Nat :=
  ((List.range l.length).find? fun i =>
      canTryHost (l.getD ((i + start) % l.length) defaultHostEntry) now).map
    fun i => (i + start) % l.length

/-- `getRoundRobin`: scan from the cursor; on a hit, a dead host gets
`willRetryHost` and the cursor becomes `currentIndex + 1` (no modulo in the
source). If no host is eligible, all hosts are reset, the cursor returns to 0
and the first host is returned. `none` models the index-out-of-range panic on
an empty `hostList`. -/
def getRoundRobin (p : StandardHostPool) (now : Nat) : Option (String × StandardHostPool) :=
  match grrFind p.hostList p.nextHostIndex now with
  | some idx =>
    let h := p.hostList.getD idx defaultHostEntry
    let h1 := if h.dead then willRetryHost h now else h
    some (h1.host, { p with hostList := p.hostList.set idx h1, nextHostIndex := idx + 1 })
  | none =>
    match p.hostList with
    | [] => none
    | h0 :: rest =>
      some (h0.host,
        { p with hostList := doResetAll (h0 :: rest) now, nextHostIndex := 0 })

/-- `markSuccess` / `markFailed` both look the host up by name and call
`SetDead`; the map lookup is embedded as an update of the matching list
entries (hostnames are unique in any pool built by `New` from distinct
names). -/
def markHostNamed (p : StandardHostPool) (host : String) (now : Nat) (deadVal : Bool) :
    StandardHostPool :=
  { p with hostList := p.hostList.map fun e => if e.host = host then SetDead e now deadVal else e }

/-- `markSuccess`: `SetDead(false)` on the named host. -/
def markSuccess (p : StandardHostPool) (host : String) (now : Nat) : StandardHostPool :=
  markHostNamed p host now false

/-- `markFailed`: `SetDead(true)` on the named host. -/
def markFailed (p : StandardHostPool) (host : String) (now : Nat) : StandardHostPool :=
  markHostNamed p host now true

/-- `doMark`: success on `err == nil`, failure otherwise. -/
def doMark (p : StandardHostPool) (host : String) (isErr : Bool) (now : Nat) :
    StandardHostPool :=
  if isErr then markFailed p host now else markSuccess p host now

/-- `standardHostPoolResponse`: the embedded `sync.Once` is the `onceDone`
latch — `Do` runs its body only when the latch is still unset. -/
structure StandardHostPoolResponse where
  host : String
  onceDone : Bool := false
deriving DecidableEq

/-- `standardHostPoolResponse.Mark`: wrapped in `r.Do`, so a marked response
never marks again. Returns the updated pool and response. -/
def Mark (p : StandardHostPool) (r : StandardHostPoolResponse) (isErr : Bool) (now : Nat) :
    StandardHostPool × StandardHostPoolResponse :=
  if r.onceDone then (p, r)
  else (doMark p r.host isErr now, { r with onceDone := true })

/-! ### Decay store (epsilon_decay.go) -/

/-- `epsilonBuckets`. -/
def epsilonBuckets : Nat := 120

/-- `defaultDecayDuration` (5 minutes, in nanoseconds). -/
def defaultDecayDuration : Nat := 5 * 60 * second

/-- `defEpsDecayStore`: the time-bucketed window. Buckets are total maps from
positions to counts (`int64`, embedded as integers) and sums (`float64`,
embedded as rationals); only positions below `epsilonBuckets` are ever
read. -/
structure DecayStore where
  epsilonCounts : Nat → Int
  epsilonValues : Nat → Rat
  epsilonIndex : Nat
  decayDuration : Nat

/-- `NewDecayStore`: all counts and sums zero, current index 0. -/
def NewDecayStore : DecayStore :=
  { epsilonCounts := fun _ => 0
    epsilonValues := fun _ => 0
    epsilonIndex := 0
    decayDuration := defaultDecayDuration }

/-- The `recordRequest` case of `muxRequests`: increment the current bucket's
count and add the score to its sum. -/
def Record (ds : DecayStore) (score : Rat) : DecayStore :=
  { ds with
      epsilonCounts := fun p =>
        if p = ds.epsilonIndex then ds.epsilonCounts p + 1 else ds.epsilonCounts p
      epsilonValues := fun p =>
        if p = ds.epsilonIndex then ds.epsilonValues p + score else ds.epsilonValues p }

/-- `performDecay`: advance the current index (mod `epsilonBuckets`) and zero
the new current bucket. -/
def performDecay (ds : DecayStore) : DecayStore :=
  { ds with
      epsilonIndex := (ds.epsilonIndex + 1) % epsilonBuckets
      epsilonCounts := fun p =>
        if p = (ds.epsilonIndex + 1) % epsilonBuckets then 0 else ds.epsilonCounts p
      epsilonValues := fun p =>
        if p = (ds.epsilonIndex + 1) % epsilonBuckets then 0 else ds.epsilonValues p }

/-- The loop body of `getWeightedAverageScore`, recursing on the number of
remaining iterations. `i` is the Go loop variable (it runs from 1 up to
`epsilonBuckets`); the pair carries the two accumulator variables
`(value, lastValue)`. -/
def wasLoop (counts : Nat → Int) (values : Nat → Rat) (idx : Nat) :
    Nat → Nat → Rat × Rat → Rat × Rat
  | 0, _, s => s
  | n + 1, i, s =>
    if 0 < counts ((idx + i) % epsilonBuckets) then
      wasLoop counts values idx n (i + 1)
        (s.1 +
            values ((idx + i) % epsilonBuckets) /
                ((counts ((idx + i) % epsilonBuckets) : Rat)) *
              ((i : Rat) / (epsilonBuckets : Rat)),
          values ((idx + i) % epsilonBuckets) / ((counts ((idx + i) % epsilonBuckets) : Rat)))
    else
      wasLoop counts values idx n (i + 1)
        (s.1 + s.2 * ((i : Rat) / (epsilonBuckets : Rat)), s.2)

/-- `getWeightedAverageScore`: walk the buckets from oldest (`i = 1`, position
`epsilonIndex + 1`) to newest (`i = epsilonBuckets`, position `epsilonIndex`),
weighting bucket `i` by `i / epsilonBuckets`; an empty bucket contributes the
last computed per-sample average instead. The result is the final `value`
accumulator. -/
def getWeightedAverageScore (ds : DecayStore) : Rat :=
  (wasLoop ds.epsilonCounts ds.epsilonValues ds.epsilonIndex epsilonBuckets 1 (0, 0)).1

/-- `GetWeightedAvgScore`: the public wrapper simply runs
`getWeightedAverageScore` inside the multiplexer. -/
def GetWeightedAvgScore (ds : DecayStore) : Rat :=
  getWeightedAverageScore ds

/-! ### Epsilon-greedy pool (hostpool.go / unnamed part_000) -/

/-- `epsilonDecay`. -/
def epsilonDecay : Rat := 9 / 10

/-- `minEpsilon`. -/
def minEpsilon : Rat := 1 / 100

/-- `initialEpsilon`. -/
def initialEpsilon : Rat := 3 / 10

/-- The epsilon update performed by `getEpsilonGreedy` on an exploration event
(`rand.Float32() < epsilon`): multiply by `epsilonDecay`, then clamp at
`minEpsilon` from below. -/
def explorationStep (eps : Rat) : Rat :=
  if eps * epsilonDecay < minEpsilon then minEpsilon else eps * epsilonDecay

/-- `epsilonHostPoolResponse`: a standard response plus the request timing
bracket, with the same `sync.Once` latch. -/
structure EpsilonResponse where
  host : String
  started : Nat
  ended : Nat := 0
  onceDone : Bool := false

/-- `epsilonGreedyHostPool` (the `ToEpsilonGreedy` shape of unnamed
part_000): the wrapped standard pool, one decay store per host name, and the
exploration factor. -/
structure EpsilonGreedyHostPool where
  std : StandardHostPool
  stores : String → DecayStore
  epsilon : Rat

/-- The epsilon pool's `markSuccess`: first the base `markSuccess`, then
`Record` of the elapsed duration in seconds (`duration.Seconds()`) into the
host's decay store. -/
def egMarkSuccess (p : EpsilonGreedyHostPool) (r : EpsilonResponse) (now : Nat) :
    EpsilonGreedyHostPool :=
  { p with
      std := markSuccess p.std r.host now
      stores := fun h =>
        if h = r.host then
          Record (p.stores h) (((r.ended : Rat) - (r.started : Rat)) / (second : Rat))
        else p.stores h }

/-- `epsilonHostPoolResponse.Mark`: inside `r.Do`, record the end time and
dispatch `doMark` (success feeds the decay store, failure only the liveness
state). A second call finds the latch set and does nothing. -/
def egMark (p : EpsilonGreedyHostPool) (r : EpsilonResponse) (isErr : Bool) (now : Nat) :
    EpsilonGreedyHostPool × EpsilonResponse :=
  if r.onceDone then (p, r)
  else
    if isErr then
      ({ p with std := markFailed p.std r.host now }, { r with ended := now, onceDone := true })
    else
      (egMarkSuccess p { r with ended := now, onceDone := true } now,
        { r with ended := now, onceDone := true })

/-- The per-host epsilon accumulation arrays of the selector variant (unnamed
part_001), where the `hostEntry` of the standard selector carries
`epsilonCounts` and `epsilonValues` as `int64` arrays sharing one bucket
index. -/
structure EpsilonArrays where
  epsilonCounts : Nat → Int
  epsilonValues : Nat → Int
  epsilonIndex : Nat

/-- The `epsilonGreedySelector` state relevant to `Mark`/`recordTiming`
(unnamed part_001): the wrapped standard pool plus each host's epsilon
arrays (the source stores them inside the standard selector's host entries;
looking up an unknown host is fatal there, and never happens below). -/
structure EpsilonGreedySelector where
  std : StandardHostPool
  hosts : String → EpsilonArrays

/-- The `epsilonHostPoolResponse` of the selector variant (unnamed part_001):
it wraps the inner latched response and the timing bracket. Unlike the other
variants, this response's own `Mark` is NOT wrapped in a `sync.Once`; only the
wrapped inner response carries the latch. -/
structure SelectorEpsilonResponse where
  inner : StandardHostPoolResponse
  started : Nat
  ended : Nat := 0

/-- `recordTiming` (unnamed part_001): increments the current bucket's count
for the response's host and adds the elapsed milliseconds
(`int64(duration.Seconds() * 1000)`, embedded as truncating natural division
of the nanosecond duration) to the bucket's value. -/
def recordTiming (s : EpsilonGreedySelector) (r : SelectorEpsilonResponse) :
    EpsilonGreedySelector :=
  { s with
      hosts := fun h =>
        if h = r.inner.host then
          { epsilonCounts := fun p =>
              if p = (s.hosts h).epsilonIndex then (s.hosts h).epsilonCounts p + 1
              else (s.hosts h).epsilonCounts p
            epsilonValues := fun p =>
              if p = (s.hosts h).epsilonIndex then
                (s.hosts h).epsilonValues p + (((r.ended - r.started) * 1000 / second : Nat) : Int)
              else (s.hosts h).epsilonValues p
            epsilonIndex := (s.hosts h).epsilonIndex }
        else s.hosts h }

/-- The `Mark` of the selector variant's `epsilonHostPoolResponse` (unnamed
part_001, lines 18-24): on a nil error it records the end time and calls
`recordTiming` — with no latch of its own — and then delegates to the wrapped
inner response's latched `Mark`. -/
def selMark (s : EpsilonGreedySelector) (r : SelectorEpsilonResponse) (isErr : Bool)
    (now : Nat) : EpsilonGreedySelector × SelectorEpsilonResponse :=
  if isErr then
    let m := Mark s.std r.inner isErr now
    ({ s with std := m.1 }, { r with inner := m.2 })
  else
    let r1 : SelectorEpsilonResponse := { r with ended := now }
    let s1 := recordTiming s r1
    let m := Mark s1.std r1.inner isErr now
    ({ s1 with std := m.1 }, { r1 with inner := m.2 })

/-- Modelled from the spec: the constructor contract of §7, "empty host set at
construction — fatal, surfaced immediately to the caller of the constructor;
the pool cannot be used". The code under src has no such check (`New` returns
a pool for any list), so this spec-side constructor is stated separately for
comparison: it refuses an empty host list and otherwise agrees with `New`. -/
def NewSpec (hosts : List String) : Option StandardHostPool :=
  if hosts = [] then none else some (New hosts)

/-! ### Concrete fixtures used by witnesses and counterexamples -/

/-- A decay window whose only nonempty bucket sits at position `pos`, holding a
single sample of value `v` (current index 0, so position 0 is the newest
bucket, reached by the loop at `i = epsilonBuckets`). -/
def singleBucketStore (pos : Nat) (v : Rat) : DecayStore :=
  { epsilonCounts := fun p => if p = pos then 1 else 0
    epsilonValues := fun p => if p = pos then v else 0
    epsilonIndex := 0
    decayDuration := defaultDecayDuration }

/-- A decay window in which every bucket holds exactly one sample of value `v`
(so every bucket's per-bucket average is `v`). -/
def uniformStore (v : Rat) : DecayStore :=
  { epsilonCounts := fun _ => 1
    epsilonValues := fun _ => v
    epsilonIndex := 0
    decayDuration := defaultDecayDuration }

/-- A dead host exactly at its retry boundary at time 5. -/
def deadProbeEntry : HostEntry :=
  { host := "a", nextRetry := 5, retryDelay := 30, initialRetryDelay := 30,
    maxRetryInterval := 900, dead := true }

/-- A second dead host, not yet at its retry time at time 50. -/
def deadProbeEntry2 : HostEntry :=
  { host := "b", nextRetry := 100, retryDelay := 60, initialRetryDelay := 30,
    maxRetryInterval := 900, dead := true }

/-- An alive host entry. -/
def aliveEntry : HostEntry :=
  { host := "c", retryDelay := 30, initialRetryDelay := 30, maxRetryInterval := 900 }

/-- A pool in which every host is dead and none has reached its retry time at
time 50. -/
def allDeadPool : StandardHostPool :=
  { hostList := [{ deadProbeEntry with nextRetry := 100 }, deadProbeEntry2]
    initialRetryDelay := 30, maxRetryInterval := 900, nextHostIndex := 1 }

/-- A small concrete epsilon-greedy pool. -/
def egPoolW : EpsilonGreedyHostPool :=
  { std := New ["a"], stores := fun _ => NewDecayStore, epsilon := initialEpsilon }

/-- A concrete fresh selector-variant state: one host, all arrays zero. -/
def egSel0 : EpsilonGreedySelector :=
  { std := New ["a"]
    hosts := fun _ =>
      { epsilonCounts := fun _ => 0, epsilonValues := fun _ => 0, epsilonIndex := 0 } }

/-- A concrete unmarked selector-variant response for host `"a"`, issued at
time 0. -/
def egResp0 : SelectorEpsilonResponse :=
  { inner := { host := "a" }, started := 0 }

/-! ## Lemmas about the weighted-average loop -/

theorem wasLoop_append (c : Nat → Int) (v : Nat → Rat) (idx : Nat) (m : Nat) :
    ∀ n i s, wasLoop c v idx (m + n) i s = wasLoop c v idx n (i + m) (wasLoop c v idx m i s) := by
  induction m with
  | zero => intro n i s; simp [wasLoop]
  | succ k ih =>
    intro n i s
    have h1 : k + 1 + n = (k + n) + 1 := by omega
    have h2 : i + (k + 1) = (i + 1) + k := by omega
    rw [h1, h2]
    by_cases hc : 0 < c ((idx + i) % epsilonBuckets)
    · simp only [wasLoop, if_pos hc]
      exact ih n (i + 1) _
    · simp only [wasLoop, if_neg hc]
      exact ih n (i + 1) _

theorem wasLoop_of_empty (c : Nat → Int) (v : Nat → Rat) (idx : Nat) :
    ∀ n i s, (∀ j, i ≤ j → j < i + n → ¬ 0 < c ((idx + j) % epsilonBuckets)) →
      wasLoop c v idx n i s =
        (s.1 + s.2 * ((∑ j in Finset.Ico i (i + n), (j : Rat)) / (epsilonBuckets : Rat)), s.2) := by
  intro n
  induction n with
  | zero => intro i s _; simp [wasLoop]
  | succ k ih =>
    intro i s h
    have hc : ¬ 0 < c ((idx + i) % epsilonBuckets) := h i le_rfl (by omega)
    simp only [wasLoop, if_neg hc]
    rw [ih (i + 1) _ (fun j hj1 hj2 => h j (by omega) (by omega))]
    have hsum : (∑ j in Finset.Ico i (i + (k + 1)), (j : Rat)) =
        (i : Rat) + ∑ j in Finset.Ico (i + 1) ((i + 1) + k), (j : Rat) := by
      have he : i + (k + 1) = (i + 1) + k := by omega
      rw [he, Finset.sum_eq_sum_Ico_succ_bot (by omega)]
    rw [hsum]
    refine Prod.ext ?_ rfl
    simp only
    ring

theorem wasLoop_of_const (c : Nat → Int) (v : Nat → Rat) (idx : Nat) (a : Rat) :
    ∀ n i s,
      (∀ j, i ≤ j → j < i + (n + 1) →
        0 < c ((idx + j) % epsilonBuckets) ∧
          v ((idx + j) % epsilonBuckets) / ((c ((idx + j) % epsilonBuckets) : Rat)) = a) →
      wasLoop c v idx (n + 1) i s =
        (s.1 + a * ((∑ j in Finset.Ico i (i + (n + 1)), (j : Rat)) / (epsilonBuckets : Rat)), a) := by
  intro n
  induction n with
  | zero =>
    intro i s h
    obtain ⟨hc, ha⟩ := h i le_rfl (by omega)
    rw [wasLoop, if_pos hc, ha, wasLoop]
    have hone : i + (0 + 1) = i + 1 := rfl
    rw [hone, Nat.Ico_succ_singleton, Finset.sum_singleton]
  | succ k ih =>
    intro i s h
    obtain ⟨hc, ha⟩ := h i le_rfl (by omega)
    rw [wasLoop, if_pos hc, ha]
    rw [ih (i + 1) _ (fun j hj1 hj2 => h j (by omega) (by omega))]
    have hsum : (∑ j in Finset.Ico i (i + (k + 1 + 1)), (j : Rat)) =
        (i : Rat) + ∑ j in Finset.Ico (i + 1) ((i + 1) + (k + 1)), (j : Rat) := by
      have he : i + (k + 1 + 1) = (i + 1) + (k + 1) := by omega
      rw [he, Finset.sum_eq_sum_Ico_succ_bot (by omega)]
    rw [hsum]
    refine Prod.ext ?_ rfl
    simp only
    ring

theorem sum_Ico_one_121 : (∑ j in Finset.Ico (1 : Nat) 121, (j : Rat)) = 7260 := by
  have hnat : (∑ j in Finset.range 121, j) = 7260 := by
    have h := Finset.sum_range_id_mul_two 121
    omega
  have hcast : (∑ j in Finset.range 121, (j : Rat)) = 7260 := by
    rw [← Nat.cast_sum, hnat]
    norm_num
  have hsplit : (∑ j in Finset.range 121, (j : Rat)) =
      ((0 : Nat) : Rat) + ∑ j in Finset.Ico (1 : Nat) 121, (j : Rat) := by
    rw [Finset.range_eq_Ico, Finset.sum_eq_sum_Ico_succ_bot (by omega)]
  rw [hsplit] at hcast
  push_cast at hcast
  linarith

theorem sum_Ico_tail_ge (pos : Nat) (h2 : pos ≤ 119) :
    (239 : Rat) ≤ ∑ j in Finset.Ico pos 121, (j : Rat) := by
  have hsub : ({119, 120} : Finset Nat) ⊆ Finset.Ico pos 121 := by
    intro x hx
    rw [Finset.mem_insert, Finset.mem_singleton] at hx
    rw [Finset.mem_Ico]
    rcases hx with h | h <;> omega
  have hpair : (∑ j in ({119, 120} : Finset Nat), (j : Rat)) = 239 := by
    rw [Finset.sum_pair (by omega)]
    norm_num
  calc (239 : Rat) = ∑ j in ({119, 120} : Finset Nat), (j : Rat) := hpair.symm
    _ ≤ ∑ j in Finset.Ico pos 121, (j : Rat) :=
      Finset.sum_le_sum_of_subset_of_nonneg hsub (fun i _ _ => by positivity)

theorem singleBucket_newest_average (v : Rat) :
    getWeightedAverageScore (singleBucketStore 0 v) = v := by
  unfold getWeightedAverageScore singleBucketStore epsilonBuckets
  simp only
  have hfuel : (120 : Nat) = 119 + 1 := by omega
  rw [hfuel, wasLoop_append]
  rw [wasLoop_of_empty _ _ _ 119 1 (0, 0) ?empty]
  case empty =>
    intro j hj1 hj2
    have hm : (0 + j) % 120 = j := by omega
    simp [hm, epsilonBuckets]
    omega
  simp only [wasLoop]
  have hm : (0 + (1 + 119)) % epsilonBuckets = 0 := by norm_num [epsilonBuckets]
  rw [hm]
  norm_num [epsilonBuckets, wasLoop]

theorem singleBucket_stale_average (pos : Nat) (h1 : 1 ≤ pos) (h2 : pos ≤ 119) (v : Rat) :
    getWeightedAverageScore (singleBucketStore pos v) =
      v * ((∑ j in Finset.Ico pos 121, (j : Rat)) / 120) := by
  unfold getWeightedAverageScore singleBucketStore epsilonBuckets
  simp only
  have hfuel : (120 : Nat) = (pos - 1) + (1 + (120 - pos)) := by omega
  rw [hfuel, wasLoop_append, wasLoop_append]
  rw [wasLoop_of_empty _ _ _ (pos - 1) 1 (0, 0) ?emptyA]
  case emptyA =>
    intro j hj1 hj2
    have hm : (0 + j) % 120 = j := by omega
    simp [hm, epsilonBuckets]
    omega
  simp only [wasLoop]
  have hi : 1 + (pos - 1) = pos := by omega
  rw [hi]
  have hm : (0 + pos) % epsilonBuckets = pos := by
    have : pos % 120 = pos := by omega
    simp [epsilonBuckets, this]
  rw [hm]
  rw [if_pos (by norm_num : (0 : Int) < if pos = pos then 1 else 0)]
  rw [wasLoop_of_empty _ _ _ (120 - pos) (pos + 1) _ ?emptyC]
  case emptyC =>
    intro j hj1 hj2
    rcases Nat.lt_or_ge j 120 with hj | hj
    · have hmj : (0 + j) % 120 = j := by omega
      simp [hmj, epsilonBuckets]
      omega
    · have hj120 : j = 120 := by omega
      subst hj120
      have hmj : (0 + 120) % 120 = 0 := by norm_num
      simp [hmj, epsilonBuckets]
      omega
  simp only [if_pos rfl]
  have hrange : pos + 1 + (120 - pos) = 121 := by omega
  rw [hrange]
  have hsum : (∑ j in Finset.Ico pos 121, (j : Rat)) =
      (pos : Rat) + ∑ j in Finset.Ico (pos + 1) 121, (j : Rat) := by
    rw [Finset.sum_eq_sum_Ico_succ_bot (by omega)]
  rw [hsum]
  simp only [Int.cast_one, epsilonBuckets]
  push_cast
  ring

theorem uniform_average (v : Rat) :
    getWeightedAverageScore (uniformStore v) = (121 / 2) * v := by
  unfold getWeightedAverageScore uniformStore epsilonBuckets
  simp only
  have hfuel : (120 : Nat) = 119 + 1 := by omega
  rw [hfuel, wasLoop_of_const _ _ _ v 119 1 (0, 0) ?const]
  case const =>
    intro j hj1 hj2
    refine ⟨by norm_num, ?_⟩
    norm_num
  have hr : (1 : Nat) + (119 + 1) = 121 := by omega
  rw [hr, sum_Ico_one_121]
  norm_num [epsilonBuckets]
  ring

theorem record_fresh_eq_single (v : Rat) :
    Record NewDecayStore v = singleBucketStore 0 v := by
  unfold Record NewDecayStore singleBucketStore
  simp only
  congr 1 <;> funext p <;> by_cases hp : p = 0 <;> simp [hp]

/-! ## Claim theorems -/

/-- Claim C2: `SetDead(true)` on an alive host transitions it to dead, resets
the retry delay to `initialRetryDelay` and re-arms `nextRetry = now +
initialRetryDelay`; on an already-dead host it changes nothing at all. -/
theorem claim_C2_set_dead_transitions (he : HostEntry) (now : Nat) :
    (he.dead = false →
      SetDead he now true =
        { he with
            dead := true
            retryDelay := he.initialRetryDelay
            nextRetry := now + he.initialRetryDelay }) ∧
    (he.dead = true → SetDead he now true = he) := by
  cases he with
  | mk host nextRetry retryDelay initialRetryDelay maxRetryInterval dead =>
    constructor <;> intro h <;> subst h <;> simp [SetDead]

/-- Witness for C2: the alive-to-dead transition at entry `aliveEntry` and the
no-op on the already-dead `deadProbeEntry`, both at time 7. -/
theorem claim_C2_witness :
    aliveEntry.dead = false ∧ deadProbeEntry.dead = true ∧
    SetDead aliveEntry 7 true =
      { aliveEntry with
          dead := true
          retryDelay := aliveEntry.initialRetryDelay
          nextRetry := 7 + aliveEntry.initialRetryDelay } ∧
    SetDead deadProbeEntry 7 true = deadProbeEntry :=
  ⟨rfl, rfl, (claim_C2_set_dead_transitions aliveEntry 7).1 rfl,
    (claim_C2_set_dead_transitions deadProbeEntry 7).2 rfl⟩

/-- Claim C3: `willRetryHost` sets the delay to `min (2 * previous)
maxRetryInterval` and re-arms `nextRetry`; iterating it yields a non-decreasing
delay sequence bounded by `maxRetryInterval`, and a success (`SetDead false`)
followed by a failure (`SetDead true`) resets the delay to
`initialRetryDelay`. -/
theorem claim_C3_backoff_growth (he : HostEntry) (now n1 n2 : Nat)
    (hle : he.retryDelay ≤ he.maxRetryInterval) :
    (willRetryHost he now).retryDelay = min (2 * he.retryDelay) he.maxRetryInterval ∧
    (willRetryHost he now).nextRetry = now + (willRetryHost he now).retryDelay ∧
    (∀ k : Nat,
      ((fun e => willRetryHost e now)^[k] he).retryDelay ≤
          ((fun e => willRetryHost e now)^[k + 1] he).retryDelay ∧
        ((fun e => willRetryHost e now)^[k] he).retryDelay ≤ he.maxRetryInterval) ∧
    (SetDead (SetDead he n1 false) n2 true).retryDelay = he.initialRetryDelay := by
  have key : ∀ k : Nat,
      ((fun e => willRetryHost e now)^[k] he).retryDelay ≤ he.maxRetryInterval ∧
        ((fun e => willRetryHost e now)^[k] he).maxRetryInterval = he.maxRetryInterval := by
    intro k
    induction k with
    | zero => exact ⟨hle, rfl⟩
    | succ n ih =>
      rw [Function.iterate_succ_apply']
      obtain ⟨ih1, ih2⟩ := ih
      refine ⟨?_, ih2⟩
      calc (willRetryHost ((fun e => willRetryHost e now)^[n] he) now).retryDelay
          ≤ ((fun e => willRetryHost e now)^[n] he).maxRetryInterval :=
            Nat.min_le_right _ _
        _ = he.maxRetryInterval := ih2
  refine ⟨?_, rfl, ?_, ?_⟩
  · show min (he.retryDelay * 2) he.maxRetryInterval = _
    rw [Nat.mul_comm]
  · intro k
    obtain ⟨h1, h2⟩ := key k
    refine ⟨?_, h1⟩
    rw [Function.iterate_succ_apply']
    show _ ≤ min (((fun e => willRetryHost e now)^[k] he).retryDelay * 2)
        ((fun e => willRetryHost e now)^[k] he).maxRetryInterval
    refine Nat.le_min.mpr ⟨by omega, ?_⟩
    rw [h2]
    exact h1
  · simp [SetDead]

/-- Witness for C3 at the concrete dead entry `deadProbeEntry`
(delay 30, cap 900). -/
theorem claim_C3_witness :
    deadProbeEntry.retryDelay ≤ deadProbeEntry.maxRetryInterval ∧
    (willRetryHost deadProbeEntry 7).retryDelay =
      min (2 * deadProbeEntry.retryDelay) deadProbeEntry.maxRetryInterval ∧
    ((fun e => willRetryHost e 7)^[2] deadProbeEntry).retryDelay ≤
      ((fun e => willRetryHost e 7)^[2 + 1] deadProbeEntry).retryDelay ∧
    (SetDead (SetDead deadProbeEntry 2 false) 3 true).retryDelay =
      deadProbeEntry.initialRetryDelay := by
  have h : deadProbeEntry.retryDelay ≤ deadProbeEntry.maxRetryInterval := by decide
  exact ⟨h, (claim_C3_backoff_growth deadProbeEntry 7 2 3 h).1,
    ((claim_C3_backoff_growth deadProbeEntry 7 2 3 h).2.2.1 2).1,
    (claim_C3_backoff_growth deadProbeEntry 7 2 3 h).2.2.2⟩

/-- Claim C4: on a fresh decay window, `Record v` followed by
`GetWeightedAvgScore` with no intervening rotation returns exactly `v`. -/
theorem claim_C4_single_record_average (v : Rat) :
    GetWeightedAvgScore (Record NewDecayStore v) = v := by
  rw [GetWeightedAvgScore, record_fresh_eq_single]
  exact singleBucket_newest_average v

/-- Witness for C4 at the test's sample value 1.5 (`TestEDS`). -/
theorem claim_C4_witness :
    GetWeightedAvgScore (Record NewDecayStore (3 / 2 : Rat)) = 3 / 2 :=
  claim_C4_single_record_average (3 / 2)

/-- Claim C5: starting from `initialEpsilon = 0.3`, after `k` exploration
events epsilon equals `max 0.01 (0.3 * 0.9 ^ k)`; each single exploration event
multiplies epsilon by 0.9 and clamps it at the 0.01 floor. -/
theorem claim_C5_epsilon_formula (k : Nat) :
    explorationStep^[k] initialEpsilon =
      max minEpsilon (initialEpsilon * epsilonDecay ^ k) ∧
    ∀ eps : Rat, explorationStep eps = max minEpsilon (eps * epsilonDecay) := by
  constructor
  · induction k with
    | zero =>
      simp only [Function.iterate_zero_apply, pow_zero, mul_one]
      rw [max_eq_right (by norm_num [minEpsilon, initialEpsilon])]
    | succ n ih =>
      rw [Function.iterate_succ_apply', ih]
      have hpow : (0 : Rat) < initialEpsilon * epsilonDecay ^ n := by
        have h9 : (0 : Rat) < (3 / 10) * (9 / 10) ^ n := by positivity
        simpa [initialEpsilon, epsilonDecay] using h9
      have hsucc : initialEpsilon * epsilonDecay ^ (n + 1) =
          initialEpsilon * epsilonDecay ^ n * epsilonDecay := by ring
      rcases le_or_lt minEpsilon (initialEpsilon * epsilonDecay ^ n) with hle | hlt
      · rw [max_eq_right hle]
        unfold explorationStep
        rcases lt_or_le (initialEpsilon * epsilonDecay ^ n * epsilonDecay) minEpsilon with h | h
        · rw [if_pos h, hsucc, max_eq_left (le_of_lt h)]
        · rw [if_neg (not_lt.mpr h), hsucc, max_eq_right h]
      · rw [max_eq_left (le_of_lt hlt)]
        unfold explorationStep
        have hstep : minEpsilon * epsilonDecay < minEpsilon := by
          norm_num [minEpsilon, epsilonDecay]
        rw [if_pos hstep]
        have hd1 : epsilonDecay < 1 := by norm_num [epsilonDecay]
        have hnext : initialEpsilon * epsilonDecay ^ (n + 1) < minEpsilon := by
          rw [hsucc]
          nlinarith
        rw [max_eq_left (le_of_lt hnext)]
  · intro eps
    unfold explorationStep
    rcases lt_or_le (eps * epsilonDecay) minEpsilon with h | h
    · rw [if_pos h, max_eq_left (le_of_lt h)]
    · rw [if_neg (not_lt.mpr h), max_eq_right h]

/-- Witness for C5 at `k = 3` exploration events. -/
theorem claim_C5_witness :
    explorationStep^[3] initialEpsilon =
      max minEpsilon (initialEpsilon * epsilonDecay ^ 3) :=
  (claim_C5_epsilon_formula 3).1

theorem selMark_second_call (s : EpsilonGreedySelector) (u : SelectorEpsilonResponse)
    (k1 k2 : Nat) :
    (selMark (selMark s u false k1).1 (selMark s u false k1).2 false k2).1.std =
        (selMark s u false k1).1.std ∧
      (selMark (selMark s u false k1).1 (selMark s u false k1).2 false k2).2.inner =
        (selMark s u false k1).2.inner ∧
      ((selMark (selMark s u false k1).1 (selMark s u false k1).2 false k2).1.hosts
            u.inner.host).epsilonCounts
          (((selMark s u false k1).1.hosts u.inner.host).epsilonIndex) =
        ((selMark s u false k1).1.hosts u.inner.host).epsilonCounts
            (((selMark s u false k1).1.hosts u.inner.host).epsilonIndex) + 1 := by
  cases hro : u.inner.onceDone <;>
    exact ⟨by simp [selMark, Mark, recordTiming, hro],
      by simp [selMark, Mark, recordTiming, hro],
      by simp [selMark, Mark, recordTiming, hro]⟩

/-- Counterexample for C6 as stated: in the selector variant cited by the
claim (unnamed part_001), `Mark(nil)` runs `recordTiming` outside any latch.
On a fresh state, the first `Mark(nil)` at time `2s` leaves the host's current
bucket at count 1 / value 2000ms, and a second `Mark(nil)` bumps them to
count 2 / value 4000ms — the decay-window state is not identical before and
after the second call. -/
theorem claim_C6_counterexample :
    ((selMark egSel0 egResp0 false (2 * second)).1.hosts "a").epsilonCounts 0 = 1 ∧
    ((selMark (selMark egSel0 egResp0 false (2 * second)).1
          (selMark egSel0 egResp0 false (2 * second)).2 false
          (2 * second)).1.hosts "a").epsilonCounts 0 = 2 ∧
    ((selMark egSel0 egResp0 false (2 * second)).1.hosts "a").epsilonValues 0 = 2000 ∧
    ((selMark (selMark egSel0 egResp0 false (2 * second)).1
          (selMark egSel0 egResp0 false (2 * second)).2 false
          (2 * second)).1.hosts "a").epsilonValues 0 = 4000 :=
  ⟨rfl, rfl, rfl, rfl⟩

/-- Claim C6 as amended: the `sync.Once` latch makes a second `Mark` a
complete no-op in the `Do`-latched variants (the standard response, and the
epsilon response of hostpool.go / unnamed part_000). In the selector variant
(unnamed part_001) only the wrapped inner response is latched: a second
`Mark(nil)` leaves the host liveness/backoff state (the standard pool) and the
latch unchanged, but `recordTiming` runs again, incrementing the host's
current decay bucket count once more. -/
theorem claim_C6_latch_scope (p : StandardHostPool) (r : StandardHostPoolResponse)
    (e1 e2 : Bool) (n1 n2 : Nat) (q : EpsilonGreedyHostPool) (t : EpsilonResponse)
    (f1 f2 : Bool) (m1 m2 : Nat) (s : EpsilonGreedySelector) (u : SelectorEpsilonResponse)
    (k1 k2 : Nat) :
    Mark (Mark p r e1 n1).1 (Mark p r e1 n1).2 e2 n2 = Mark p r e1 n1 ∧
    egMark (egMark q t f1 m1).1 (egMark q t f1 m1).2 f2 m2 = egMark q t f1 m1 ∧
    (selMark (selMark s u false k1).1 (selMark s u false k1).2 false k2).1.std =
      (selMark s u false k1).1.std ∧
    (selMark (selMark s u false k1).1 (selMark s u false k1).2 false k2).2.inner =
      (selMark s u false k1).2.inner ∧
    ((selMark (selMark s u false k1).1 (selMark s u false k1).2 false k2).1.hosts
          u.inner.host).epsilonCounts
        (((selMark s u false k1).1.hosts u.inner.host).epsilonIndex) =
      ((selMark s u false k1).1.hosts u.inner.host).epsilonCounts
          (((selMark s u false k1).1.hosts u.inner.host).epsilonIndex) + 1 := by
  refine ⟨?_, ?_, (selMark_second_call s u k1 k2).1, (selMark_second_call s u k1 k2).2.1,
    (selMark_second_call s u k1 k2).2.2⟩
  · cases hr : r.onceDone <;> simp [Mark, hr]
  · cases hs : t.onceDone
    · cases f1 <;> simp [egMark, hs]
    · simp [egMark, hs]

/-- Witness for C6 on concrete pools and responses: the latched standard
`Mark` is idempotent, and the unlatched selector-variant `Mark` increments the
decay bucket count on its second call. -/
theorem claim_C6_witness :
    Mark (Mark (New ["a"]) ⟨"a", false⟩ true 1).1 (Mark (New ["a"]) ⟨"a", false⟩ true 1).2
        false 2 =
      Mark (New ["a"]) ⟨"a", false⟩ true 1 ∧
    ((selMark (selMark egSel0 egResp0 false (2 * second)).1
          (selMark egSel0 egResp0 false (2 * second)).2 false
          (2 * second)).1.hosts egResp0.inner.host).epsilonCounts
        (((selMark egSel0 egResp0 false (2 * second)).1.hosts
          egResp0.inner.host).epsilonIndex) =
      ((selMark egSel0 egResp0 false (2 * second)).1.hosts
          egResp0.inner.host).epsilonCounts
          (((selMark egSel0 egResp0 false (2 * second)).1.hosts
            egResp0.inner.host).epsilonIndex) + 1 :=
  ⟨(claim_C6_latch_scope (New ["a"]) ⟨"a", false⟩ true false 1 2
      egPoolW ⟨"a", 0, 0, false⟩ false true 3 4 egSel0 egResp0 (2 * second) (2 * second)).1,
    (claim_C6_latch_scope (New ["a"]) ⟨"a", false⟩ true false 1 2
      egPoolW ⟨"a", 0, 0, false⟩ false true 3 4 egSel0 egResp0
      (2 * second) (2 * second)).2.2.2.2⟩

/-- Counterexample for C7 as stated: `deadProbeEntry` is dead with
`nextRetry = 5`; at `now = 5` the retry time has been reached
(`now >= nextRetryAt`), yet `canTryHost` returns `false`, because the source
compares with `time.Time.Before`, which is strict. -/
theorem claim_C7_counterexample :
    canTryHost deadProbeEntry 5 = false ∧
    deadProbeEntry.dead = true ∧ deadProbeEntry.nextRetry ≤ 5 := by
  decide

/-- Claim C7 as amended: `canTryHost he now` is true iff the host is alive, or
it is dead and `now` is strictly after `nextRetry`. -/
theorem claim_C7_can_try_strict (he : HostEntry) (now : Nat) :
    canTryHost he now = true ↔
      he.dead = false ∨ (he.dead = true ∧ he.nextRetry < now) := by
  cases hd : he.dead <;> simp [canTryHost, hd]

/-- Witness for C7 at the concrete dead entry one tick after its retry time. -/
theorem claim_C7_witness :
    canTryHost deadProbeEntry 6 = true ↔
      deadProbeEntry.dead = false ∨
        (deadProbeEntry.dead = true ∧ deadProbeEntry.nextRetry < 6) :=
  claim_C7_can_try_strict deadProbeEntry 6

theorem grrFind_eq_none (l : List HostEntry) (start now : Nat)
    (h : ∀ e ∈ l, canTryHost e now = false) :
    grrFind l start now = none := by
  unfold grrFind
  rw [Option.map_eq_none']
  rw [List.find?_eq_none]
  intro i hi
  rw [List.mem_range] at hi
  have hlt : (i + start) % l.length < l.length := Nat.mod_lt _ (by omega)
  rw [List.getD_eq_getElem l _ hlt]
  simp [h _ (l.getElem_mem hlt)]

theorem grrFind_lt (l : List HostEntry) (start now idx : Nat)
    (h : grrFind l start now = some idx) : idx < l.length := by
  unfold grrFind at h
  rw [Option.map_eq_some'] at h
  obtain ⟨i, hi, rfl⟩ := h
  have hmem := List.mem_of_find?_eq_some hi
  rw [List.mem_range] at hmem
  exact Nat.mod_lt _ (by omega)

/-- Claim C1: if the pool is non-empty and no host satisfies `canTryHost` at
`now`, `getRoundRobin` still returns the first host of the deterministic host
order, resets the cursor to 0 and marks every host alive. -/
theorem claim_C1_fail_open (p : StandardHostPool) (now : Nat)
    (hne : p.hostList ≠ [])
    (hdead : ∀ e ∈ p.hostList, canTryHost e now = false) :
    getRoundRobin p now =
      some ((p.hostList.headD defaultHostEntry).host,
        { p with hostList := doResetAll p.hostList now, nextHostIndex := 0 }) ∧
    ∀ e ∈ doResetAll p.hostList now, e.dead = false := by
  have hnone := grrFind_eq_none p.hostList p.nextHostIndex now hdead
  constructor
  · unfold getRoundRobin
    rw [hnone]
    cases hl : p.hostList with
    | nil => exact absurd hl hne
    | cons h0 rest => simp [hl]
  · intro e he
    unfold doResetAll at he
    rw [List.mem_map] at he
    obtain ⟨x, hx, rfl⟩ := he
    simp [SetDead]

/-- Witness for C1 at a concrete two-host pool whose hosts are both dead with
retry times beyond `now = 50`. -/
theorem claim_C1_witness :
    allDeadPool.hostList ≠ [] ∧
    (∀ e ∈ allDeadPool.hostList, canTryHost e 50 = false) ∧
    getRoundRobin allDeadPool 50 =
      some ((allDeadPool.hostList.headD defaultHostEntry).host,
        { allDeadPool with hostList := doResetAll allDeadPool.hostList 50, nextHostIndex := 0 }) ∧
    ∀ e ∈ doResetAll allDeadPool.hostList 50, e.dead = false := by
  have h1 : allDeadPool.hostList ≠ [] := by decide
  have h2 : ∀ e ∈ allDeadPool.hostList, canTryHost e 50 = false := by decide
  exact ⟨h1, h2, (claim_C1_fail_open allDeadPool 50 h1 h2).1,
    (claim_C1_fail_open allDeadPool 50 h1 h2).2⟩

/-- Counterexample for C8 as stated: the spec-modelled constructor `NewSpec`
rejects the empty host list, but the source constructor `New` does not — it
returns a pool, so no configuration error is surfaced to the caller of the
constructor. -/
theorem claim_C8_counterexample :
    NewSpec [] = none ∧ some (New []) ≠ NewSpec [] := by
  refine ⟨rfl, ?_⟩
  intro h
  rw [show NewSpec [] = none from rfl] at h
  exact Option.some_ne_none _ h

/-- Claim C8 as amended: `New []` is accepted and returns a pool with an empty
host list; the failure surfaces only at selection time — `getRoundRobin` on
that pool has no defined result (an index-out-of-range panic in the source),
so `Get` is never defined behavior on it. -/
theorem claim_C8_amended :
    (New []).hostList = [] ∧ ∀ now : Nat, getRoundRobin (New []) now = none :=
  ⟨rfl, fun _ => rfl⟩

/-- Witness for C8 at the concrete time 7. -/
theorem claim_C8_witness : getRoundRobin (New []) 7 = none :=
  claim_C8_amended.2 7

/-- Counterexample for C9 as stated: on the one-host pool `New ["a"]` (host
alive, cursor 0) a `getRoundRobin` pick returns cursor 1 with host count 1, so
the cursor does not lie in `[0, len)` and is not `(chosen + 1) % len = 0`. -/
theorem claim_C9_counterexample :
    (getRoundRobin (New ["a"]) 0).map
        (fun x => (x.2.nextHostIndex, x.2.hostList.length)) = some (1, 1) ∧
    ¬ ((1 : Nat) < 1) := by
  exact ⟨rfl, by omega⟩

/-- Claim C9 as amended: for every non-empty pool, `getRoundRobin` succeeds
and leaves the cursor in the closed interval `[0, len]`; the cursor is either 0
(the fail-open reset) or exactly one past the index of the returned host,
without any modulo. -/
theorem claim_C9_cursor_bound (p : StandardHostPool) (now : Nat) (hne : p.hostList ≠ []) :
    ∃ h p1, getRoundRobin p now = some (h, p1) ∧
      p1.nextHostIndex ≤ p1.hostList.length ∧
      (p1.nextHostIndex = 0 ∨
        ∃ e, p1.hostList[p1.nextHostIndex - 1]? = some e ∧ e.host = h) := by
  cases hf : grrFind p.hostList p.nextHostIndex now with
  | none =>
    unfold getRoundRobin
    rw [hf]
    cases hl : p.hostList with
    | nil => exact absurd hl hne
    | cons h0 rest => exact ⟨h0.host, _, rfl, Nat.zero_le _, Or.inl rfl⟩
  | some idx =>
    have hlt := grrFind_lt _ _ _ _ hf
    simp only [getRoundRobin, hf]
    refine ⟨_, _, rfl, ?_, Or.inr ⟨_, ?_, rfl⟩⟩
    · simp only [List.length_set]
      omega
    · simp only
      have hidx : idx + 1 - 1 = idx := by omega
      rw [hidx]
      exact List.getElem?_set_eq_of_lt _ hlt

/-- Witness for C9 at a concrete two-host pool. -/
theorem claim_C9_witness :
    (New ["a", "b"]).hostList ≠ [] ∧
    ∃ h p1, getRoundRobin (New ["a", "b"]) 0 = some (h, p1) ∧
      p1.nextHostIndex ≤ p1.hostList.length ∧
      (p1.nextHostIndex = 0 ∨
        ∃ e, p1.hostList[p1.nextHostIndex - 1]? = some e ∧ e.host = h) := by
  have h1 : (New ["a", "b"]).hostList ≠ [] := by simp [New]
  exact ⟨h1, claim_C9_cursor_bound (New ["a", "b"]) 0 h1⟩

/-- Claim C10: the decay window's weighted average is an unnormalized weighted
sum — with all 120 buckets holding per-bucket average `v` it returns
`(121/2) * v = 60.5 * v`, not `v`; a single-bucket window returns `v` exactly
when that bucket is the newest (position 0 when the index is 0, visited with
weight `120/120`), and never when the lone bucket is any older one. -/
theorem claim_C10_unnormalized_weighted_average :
    (∀ v : Rat, getWeightedAverageScore (uniformStore v) = (121 / 2) * v) ∧
    (∀ v : Rat, getWeightedAverageScore (singleBucketStore 0 v) = v) ∧
    (∀ pos : Nat, 1 ≤ pos → pos ≤ 119 → ∀ v : Rat, 0 < v →
      getWeightedAverageScore (singleBucketStore pos v) ≠ v) := by
  refine ⟨uniform_average, singleBucket_newest_average, ?_⟩
  intro pos h1 h2 v hv heq
  rw [singleBucket_stale_average pos h1 h2 v] at heq
  have hge := sum_Ico_tail_ge pos h2
  have hx : v * ((∑ j in Finset.Ico pos 121, (j : Rat)) / 120) = v * 1 := by
    rw [mul_one]; exact heq
  have hdiv : (∑ j in Finset.Ico pos 121, (j : Rat)) / 120 = 1 :=
    mul_left_cancel₀ (ne_of_gt hv) hx
  have hsum : (∑ j in Finset.Ico pos 121, (j : Rat)) = 120 := by
    field_simp at hdiv
    linarith
  linarith

/-- Witness for C10: the uniform window at `v = 3`, the newest-only window at
`v = 3`, and the lone stale bucket at position 60 with `v = 2`. -/
theorem claim_C10_witness :
    getWeightedAverageScore (uniformStore 3) = (121 / 2) * 3 ∧
    getWeightedAverageScore (singleBucketStore 0 3) = 3 ∧
    (1 : Nat) ≤ 60 ∧ (60 : Nat) ≤ 119 ∧ (0 : Rat) < 2 ∧
    getWeightedAverageScore (singleBucketStore 60 2) ≠ 2 :=
  ⟨claim_C10_unnormalized_weighted_average.1 3,
    claim_C10_unnormalized_weighted_average.2.1 3,
    by omega, by omega, by norm_num,
    claim_C10_unnormalized_weighted_average.2.2 60 (by omega) (by omega) 2 (by norm_num)⟩

end HostPool
